import Mathlib

/-!
Verification of the `json-matcher` library: a shallow embedding of its data
model (JSON values, paths, match errors) and of every matcher implementation
(`src/error.rs`, `src/json_matcher.rs`, `src/matchers/*.rs`, `src/u16_matcher.rs`,
`src/datetime.rs`), together with theorems settling the specified properties.
-/

/-! ## Path model (src/error.rs) -/

/-- One segment of a JSON path: `JsonPathElement` in `src/error.rs`. -/
inductive JsonPathElement
  | root
  | index (i : Nat)
  | key (k : String)
deriving DecidableEq, Repr

/-- Display of one path element (`impl Display for JsonPathElement`):
`$` for the root marker, the decimal index, or the literal key text. -/
def JsonPathElement.render : JsonPathElement → String
  | .root => "$"
  | .index i => toString i
  | .key k => k

/-- A `JsonPath` is an ordered list of elements (`struct JsonPath(Vec<JsonPathElement>)`). -/
abbrev JsonPath := List JsonPathElement

/-- Display of a path (`impl Display for JsonPath`): render each element and
join with `"."`. -/
def JsonPath.render (p : JsonPath) : String :=
  String.intercalate "." (List.map JsonPathElement.render p)

/-- `JsonPath::extend`: append the elements of the second path, first dropping
the second path's leading `Root` marker when it has one. -/
def JsonPath.extend (self : JsonPath) (elements : JsonPath) : JsonPath :=
  self ++ (match elements with
           | JsonPathElement.root :: rest => rest
           | other => other)

/-- The default path (`impl Default for JsonPath`): just the root marker. -/
def JsonPath.default : JsonPath := [JsonPathElement.root]

/-- A match error (`struct JsonMatcherError`): a path plus a message. -/
structure JsonMatcherError where
  path : JsonPath
  message : String
deriving DecidableEq, Repr

/-- `JsonMatcherError::at_root`: an error at the default (root) path. -/
def JsonMatcherError.at_root (message : String) : JsonMatcherError :=
  { path := JsonPath.default, message := message }

/-! ## JSON value model (serde_json)

`serde_json::Number` stores a non-negative integer (`u64`), a negative
integer (`i64`), or a double; `as_i64` succeeds on the integer variants when
the value fits `i64`, and `as_f64` succeeds on all three variants in the
default build (the float payload can never be NaN or infinite, since
`Number::from_f64` rejects those, so we model it by a rational number and
model the integer-to-double conversions as exact). -/

/-- Model of `serde_json::Number` with its three variants. -/
inductive JNum
  | posInt (n : Nat)
  | negInt (n : Int)
  | float (q : ℚ)
deriving DecidableEq, Repr

/-- `serde_json::Number::as_i64`: integer variants in `i64` range only. -/
def JNum.as_i64 : JNum → Option Int
  | .posInt n => if n ≤ 2 ^ 63 - 1 then some (n : Int) else none
  | .negInt n => some n
  | .float _ => none

/-- `serde_json::Number::as_f64`: defined (`some`) on every variant of the
default build; the integer-to-double conversion is modelled as exact. -/
def JNum.as_f64 : JNum → Option ℚ
  | .posInt n => some (n : ℚ)
  | .negInt n => some (n : ℚ)
  | .float q => some q

/-- Model of Rust `Display` for numbers, used only inside error message text
(never compared by any claim): integers print as decimal integers, and a
non-integral rational falls back to a num/den rendering. -/
def fmtRat (q : ℚ) : String :=
  if q.den = 1 then toString q.num else toString q.num ++ "/" ++ toString q.den

/-- Display of a `serde_json::Number` (used only in message text). -/
def JNum.render : JNum → String
  | .posInt n => toString n
  | .negInt n => toString n
  | .float q => fmtRat q

/-- Model of `serde_json::Value`: JSON values.  Objects keep their entries as
an ordered association list (serde's map preserves insertion order); a
well-formed object never has two entries with the same key. -/
inductive Json
  | null
  | bool (b : Bool)
  | num (n : JNum)
  | str (s : String)
  | arr (elements : List Json)
  | obj (entries : List (String × Json))
deriving Repr

/-- `serde_json::Value::as_i64`: numbers only, via `Number::as_i64`. -/
def Json.value_as_i64 : Json → Option Int
  | .num n => n.as_i64
  | _ => none

/-- `serde_json::Value::as_str`: strings only. -/
def Json.value_as_str : Json → Option String
  | .str s => some s
  | _ => none

/-- `serde_json::Value::is_null`. -/
def Json.is_null : Json → Bool
  | .null => true
  | _ => false

/-! ## The matching contract (src/json_matcher.rs)

`trait JsonMatcher` has the single method
`json_matches(&self, value: &Value) -> Vec<JsonMatcherError>`; in the shallow
embedding a matcher is simply such a function. -/

/-- A matcher: the single-method `JsonMatcher` capability. -/
abbrev Matcher := Json → List JsonMatcherError

/-! ## Primitive matchers (src/matchers/{null,boolean,number,string,any}.rs) -/

/-- `NullMatcher::json_matches`. -/
def NullMatcher.json_matches (value : Json) : List JsonMatcherError :=
  match value with
  | .null => []
  | _ => [JsonMatcherError.at_root "Value is not null"]

/-- `enum BooleanMatcher { Exact(bool), Any }`. -/
inductive BooleanMatcher
  | exact (value : Bool)
  | any

/-- `impl JsonMatcher for BooleanMatcher`. -/
def BooleanMatcher.json_matches (self : BooleanMatcher) (value : Json) :
    List JsonMatcherError :=
  match value with
  | .bool actual =>
    match self with
    | .exact expected =>
      if actual ≠ expected then
        [JsonMatcherError.at_root ("Value is not " ++ toString expected)]
      else []
    | .any => []
  | _ => [JsonMatcherError.at_root "Value is not a boolean"]

/-- `struct IntegerMatcher { value: i64 }`. -/
structure IntegerMatcher where
  value : Int

/-- `impl JsonMatcher for IntegerMatcher`. -/
def IntegerMatcher.json_matches (self : IntegerMatcher) (value : Json) :
    List JsonMatcherError :=
  match value with
  | .num num =>
    match num.as_i64 with
    | none =>
      [JsonMatcherError.at_root
        ("Expected integer " ++ toString self.value ++ " but got float " ++ num.render)]
    | some actual =>
      if actual = self.value then []
      else
        [JsonMatcherError.at_root
          ("Expected integer " ++ toString self.value ++ " but got " ++ toString actual)]
  | _ => [JsonMatcherError.at_root "Value is not an integer"]

/-- `struct NumberMatcher { number: f64 }` (the float matcher). -/
structure NumberMatcher where
  number : ℚ

/-- `impl JsonMatcher for NumberMatcher`. -/
def NumberMatcher.json_matches (self : NumberMatcher) (value : Json) :
    List JsonMatcherError :=
  match value with
  | .num num =>
    match num.as_f64 with
    | none =>
      [JsonMatcherError.at_root
        ("Expected float " ++ fmtRat self.number ++ " but got integer " ++ num.render)]
    | some actual =>
      if actual = self.number then []
      else
        [JsonMatcherError.at_root
          ("Expected float " ++ fmtRat self.number ++ " but got " ++ fmtRat actual)]
  | _ => [JsonMatcherError.at_root "Value is not a float"]

/-- `StrMatcher::json_matches` (exact string matcher). -/
def StrMatcher.json_matches (expected : String) (value : Json) :
    List JsonMatcherError :=
  match value with
  | .str actual =>
    if actual = expected then []
    else
      [JsonMatcherError.at_root
        ("Expected string \"" ++ expected ++ "\" but got \"" ++ actual ++ "\"")]
  | _ => [JsonMatcherError.at_root "Value is not a string"]

/-- `struct AnyMatcher { not_null: bool }`. -/
structure AnyMatcher where
  not_null : Bool

/-- `AnyMatcher::new()`. -/
def AnyMatcher.new : AnyMatcher := { not_null := false }

/-- `AnyMatcher::not_null()` (the constructor setting the flag). -/
def AnyMatcher.mk_not_null : AnyMatcher := { not_null := true }

/-- `impl JsonMatcher for AnyMatcher`. -/
def AnyMatcher.json_matches (self : AnyMatcher) (value : Json) :
    List JsonMatcherError :=
  if self.not_null && value.is_null then
    [JsonMatcherError.at_root "Expected non-null value"]
  else []

/-! ## Key ordering

Rust sorts `Vec<String>` by byte-wise lexicographic order; since UTF-8 byte
order agrees with code-point order, we model it by lexicographic comparison
of the characters' code points. -/

/-- Lexicographic less-or-equal on character lists by code point. -/
def charsLe : List Char → List Char → Bool
  | [], _ => true
  | _ :: _, [] => false
  | a :: as, b :: bs =>
    if a.toNat = b.toNat then charsLe as bs else decide (a.toNat < b.toNat)

/-- The string order used when the object matcher sorts key lists. -/
def StrLe (a b : String) : Prop := charsLe a.data b.data = true

instance : DecidableRel StrLe := fun a b =>
  inferInstanceAs (Decidable (charsLe a.data b.data = true))

theorem charsLe_cons (a b : Char) (as bs : List Char) :
    charsLe (a :: as) (b :: bs) =
      if a.toNat = b.toNat then charsLe as bs else decide (a.toNat < b.toNat) := rfl

theorem charsLe_total (x y : List Char) : charsLe x y = true ∨ charsLe y x = true := by
  induction x generalizing y with
  | nil => left; rfl
  | cons a as ih =>
    cases y with
    | nil => right; rfl
    | cons b bs =>
      rw [charsLe_cons, charsLe_cons]
      by_cases hab : a.toNat = b.toNat
      · rw [if_pos hab, if_pos hab.symm]
        exact ih bs
      · have hba : b.toNat ≠ a.toNat := fun h => hab h.symm
        rw [if_neg hab, if_neg hba]
        rcases Nat.lt_or_ge a.toNat b.toNat with h | h
        · left; exact decide_eq_true h
        · right; exact decide_eq_true (lt_of_le_of_ne h hba)

theorem charsLe_trans {x y z : List Char} (hxy : charsLe x y = true)
    (hyz : charsLe y z = true) : charsLe x z = true := by
  induction x generalizing y z with
  | nil => rfl
  | cons a as ih =>
    cases y with
    | nil => simp [charsLe] at hxy
    | cons b bs =>
      cases z with
      | nil => simp [charsLe] at hyz
      | cons c cs =>
        rw [charsLe_cons] at hxy hyz ⊢
        by_cases hab : a.toNat = b.toNat
        · rw [if_pos hab] at hxy
          by_cases hbc : b.toNat = c.toNat
          · rw [if_pos hbc] at hyz
            rw [if_pos (hab.trans hbc)]
            exact ih hxy hyz
          · rw [if_neg hbc] at hyz
            have h1 : b.toNat < c.toNat := of_decide_eq_true hyz
            rw [if_neg (by omega)]
            exact decide_eq_true (by omega)
        · rw [if_neg hab] at hxy
          have h1 : a.toNat < b.toNat := of_decide_eq_true hxy
          by_cases hbc : b.toNat = c.toNat
          · rw [if_pos hbc] at hyz
            rw [if_neg (by omega)]
            exact decide_eq_true (by omega)
          · rw [if_neg hbc] at hyz
            have h2 : b.toNat < c.toNat := of_decide_eq_true hyz
            rw [if_neg (by omega)]
            exact decide_eq_true (by omega)

instance : IsTotal String StrLe := ⟨fun a b => charsLe_total a.data b.data⟩

instance : IsTrans String StrLe := ⟨fun _ _ _ => charsLe_trans⟩

/-- Sorting a list of keys (`Vec::sort` on strings in `object.rs`). -/
def sortKeys (l : List String) : List String := List.insertionSort StrLe l

/-! ## Array matcher (src/matchers/array.rs) -/

/-- Re-root one child error under the given path element, exactly as both
composite matchers do: build the two-element path `[Root, seg]` and
`JsonPath::extend` it with the child error's path. -/
def rerootError (seg : JsonPathElement) (e : JsonMatcherError) : JsonMatcherError :=
  { path := JsonPath.extend [JsonPathElement.root, seg] e.path, message := e.message }

/-- `ArrayMatcherRefs::json_matches`: length reconciliation followed by
per-index child matching over the indices present on both sides. -/
def ArrayMatcherRefs.json_matches (elements : List Matcher) (value : Json) :
    List JsonMatcherError :=
  match value with
  | .arr array =>
    let actual_length := array.length
    let expected_length := elements.length
    let missingErrors :=
      if actual_length < expected_length then
        [JsonMatcherError.at_root
          (if actual_length = expected_length - 1 then
            "Array is missing index " ++ toString actual_length
          else
            "Array is missing indexes: " ++ toString actual_length ++ ".." ++
              toString (expected_length - 1))]
      else []
    let unexpectedErrors :=
      if expected_length < actual_length then
        [JsonMatcherError.at_root
          (if expected_length = actual_length - 1 then
            "Array has unexpected index " ++ toString expected_length
          else
            "Array has unexpected indexes: " ++ toString expected_length ++ ".." ++
              toString (actual_length - 1))]
      else []
    let childErrors :=
      (List.range (min actual_length expected_length)).flatMap (fun index =>
        match elements[index]?, array[index]? with
        | some matcher, some v => (matcher v).map (rerootError (JsonPathElement.index index))
        | _, _ => [])
    missingErrors ++ unexpectedErrors ++ childErrors
  | _ => [JsonMatcherError.at_root "Value is not an array"]

/-! ## Object matcher (src/matchers/object.rs) -/

/-- `ObjectMatcherRefs::json_matches`: key-set reconciliation (missing keys,
then unexpected keys unless permissive), then per-field child matching over
the sorted intersection of the key sets.  The `HashSet`s of keys are modelled
by deduplicated key lists, whose membership is all the algorithm consumes. -/
def ObjectMatcherRefs.json_matches (allow_unexpected_keys : Bool)
    (fields : List (String × Matcher)) (value : Json) : List JsonMatcherError :=
  match value with
  | .obj map =>
    let actual_keys := (map.map Prod.fst).dedup
    let expected_keys := (fields.map Prod.fst).dedup
    let expected_but_missing :=
      sortKeys (expected_keys.filter (fun k => !(actual_keys.contains k)))
    let missingErrors :=
      if expected_but_missing.isEmpty then []
      else
        [JsonMatcherError.at_root
          ("Object is missing keys: " ++ String.intercalate ", " expected_but_missing)]
    let unexpectedErrors :=
      if allow_unexpected_keys then []
      else
        let unexpected :=
          sortKeys (actual_keys.filter (fun k => !(expected_keys.contains k)))
        if unexpected.isEmpty then []
        else
          [JsonMatcherError.at_root
            ("Object has unexpected keys: " ++ String.intercalate ", " unexpected)]
    let expected_and_present :=
      sortKeys (expected_keys.filter (fun k => actual_keys.contains k))
    let childErrors :=
      expected_and_present.flatMap (fun key =>
        match List.lookup key fields, List.lookup key map with
        | some matcher, some v => (matcher v).map (rerootError (JsonPathElement.key key))
        | _, _ => [])
    missingErrors ++ unexpectedErrors ++ childErrors
  | _ => [JsonMatcherError.at_root "Value is not an object"]

/-! ## Value-as-matcher adapter (src/matchers/value.rs) -/

/-- `impl JsonMatcher for Value`: a literal JSON value acts as its own exact
matcher.  Null delegates to the null matcher, booleans / strings to the exact
matchers, a number to the integer matcher when it is `i64`-representable and
otherwise to the float matcher on its `f64` value, an array to
`ArrayMatcherRefs` over its elements as matchers, and an object to
`ObjectMatcherRefs` with unexpected keys disallowed. -/
def Json.json_matches (self : Json) (value : Json) : List JsonMatcherError :=
  match self with
  | .null => NullMatcher.json_matches value
  | .bool x => (BooleanMatcher.exact x).json_matches value
  | .num number =>
    match number.as_i64 with
    | some integer => IntegerMatcher.json_matches ⟨integer⟩ value
    | none => NumberMatcher.json_matches ⟨(number.as_f64).getD 0⟩ value
  | .str x => StrMatcher.json_matches x value
  | .arr vec =>
    ArrayMatcherRefs.json_matches (vec.attach.map (fun x => Json.json_matches x.1)) value
  | .obj map =>
    ObjectMatcherRefs.json_matches false
      (map.attach.map (fun kv => (kv.1.1, Json.json_matches kv.1.2))) value
termination_by sizeOf self
decreasing_by
  · simp_wf
    have h := List.sizeOf_lt_of_mem x.2
    omega
  · simp_wf
    have h := List.sizeOf_lt_of_mem kv.2
    obtain ⟨⟨k, v⟩, hm⟩ := kv
    simp at h ⊢
    omega

/-! ## Bounded u16 matcher (src/u16_matcher.rs) -/

/-- Model of Rust `u16::from_str` as used by `s.parse::<u16>()`: an optional
leading `+`, then one or more ASCII digits, read in base 10, and the value
must fit in `0..=65535`; anything else (empty string, whitespace, minus sign,
decimal point) fails. -/
def parseU16 (s : String) : Option Nat :=
  let cs := match s.data with
            | '+' :: rest => rest
            | l => l
  if cs = [] then none
  else if cs.all (fun c => c.isDigit) then
    let n := cs.foldl (fun acc c => acc * 10 + (c.toNat - '0'.toNat)) 0
    if n ≤ 65535 then some n else none
  else none

/-- `struct U16Matcher { allow_strings: bool }`. -/
structure U16Matcher where
  allow_strings : Bool

/-- `impl JsonMatcher for U16Matcher`: in string mode, accept strings that
parse as `u16`; in numeric mode, accept `i64`-valued numbers within
`0..=65535`. -/
def U16Matcher.json_matches (self : U16Matcher) (value : Json) :
    List JsonMatcherError :=
  match self.allow_strings with
  | true =>
    match value.value_as_str with
    | some s =>
      if (parseU16 s).isSome then []
      else [JsonMatcherError.at_root "Expected number fitting u16"]
    | none => [JsonMatcherError.at_root "Expected string fitting u16"]
  | false =>
    match value.value_as_i64 with
    | some s =>
      if 0 ≤ s ∧ s ≤ 65535 then []
      else [JsonMatcherError.at_root "Integer out of bounds for u16"]
    | none => [JsonMatcherError.at_root "Expected number fitting u16"]

/-! ## Timestamp string matcher (src/datetime.rs)

The matcher delegates parsing to chrono's `DateTime::parse_from_rfc3339`; we
abstract that external parser as a function (an oracle) from strings to either
a parse-error string or a parsed datetime, of which the matcher only consumes
the UTC offset (`offset().utc_minus_local()`) and the Unix timestamp.
Likewise the `to_rfc3339` rendering of the lower bound, used only inside one
message, is abstracted as a formatting function. -/

/-- The projection of a parsed `DateTime<FixedOffset>` the matcher consumes. -/
structure ParsedDateTime where
  timestamp : Int
  utc_minus_local : Int

/-- An abstract stand-in for chrono's `DateTime::parse_from_rfc3339`. -/
abbrev Rfc3339Parse := String → Except String ParsedDateTime

/-- `parse_datetime_from_string` (src/datetime.rs) specialised to
`timezone = None`, which is how `DateTimeStringMatcher::json_matches` always
calls it: try the parse directly; on failure retry with `"Z"` appended (the
value may lack its own timezone), and if that also fails report the original
error wrapped in the fixed prefix.  With no timezone given, a successful
retry is returned as parsed. -/
def parse_datetime_from_string (parse : Rfc3339Parse) (s : String) :
    Except String ParsedDateTime :=
  match parse s with
  | .ok x => .ok x
  | .error e =>
    match parse (s ++ "Z") with
    | .ok parsed => .ok parsed
    | .error _ =>
      .error ("Value cannot be parsed as an RFC 3339 timestamp: " ++ e)

/-- `struct DateTimeStringMatcher`: optional inclusive/exclusive bounds, of
which only the Unix timestamps are consumed. -/
structure DateTimeStringMatcher where
  lower_bound : Option Int
  lower_bound_inclusive : Bool
  upper_bound : Option Int
  upper_bound_inclusive : Bool

/-- The lower-bound portion of `DateTimeStringMatcher::json_matches` (the
tail of the method body, split out of the embedding for readability). -/
def DateTimeStringMatcher.check_lower (fmt : Int → String)
    (self : DateTimeStringMatcher) (datetime : ParsedDateTime) :
    List JsonMatcherError :=
  match self.lower_bound with
  | some lower_bound =>
    if self.lower_bound_inclusive then
      if datetime.timestamp < lower_bound then
        [JsonMatcherError.at_root
          ("Datetime is before lower bound of " ++ fmt lower_bound)]
      else []
    else
      if datetime.timestamp ≤ lower_bound then
        [JsonMatcherError.at_root "Datetime is before or equal to lower bound"]
      else []
  | none => []

/-- `impl JsonMatcher for DateTimeStringMatcher`: non-strings are rejected;
parse failures are reported with the underlying reason; a parsed datetime
whose UTC offset is non-zero fails with "Datetime is not in UTC" before any
bound check; then the upper bound and lower bound are checked in that order.
`fmt` abstracts chrono's `to_rfc3339` used in the lower-bound message. -/
def DateTimeStringMatcher.json_matches (parse : Rfc3339Parse) (fmt : Int → String)
    (self : DateTimeStringMatcher) (value : Json) : List JsonMatcherError :=
  match value with
  | .str as_str =>
    match parse_datetime_from_string parse as_str with
    | .error err =>
      [JsonMatcherError.at_root ("Could not parse string as rfc3339 datetime: " ++ err)]
    | .ok datetime =>
      if datetime.utc_minus_local ≠ 0 then
        [JsonMatcherError.at_root "Datetime is not in UTC"]
      else
        match self.upper_bound with
        | some upper_bound =>
          if self.upper_bound_inclusive then
            if datetime.timestamp > upper_bound then
              [JsonMatcherError.at_root "Datetime is after upper bound"]
            else
              DateTimeStringMatcher.check_lower fmt self datetime
          else
            if datetime.timestamp ≥ upper_bound then
              [JsonMatcherError.at_root "Datetime is after or equal to upper bound"]
            else
              DateTimeStringMatcher.check_lower fmt self datetime
        | none => DateTimeStringMatcher.check_lower fmt self datetime
  | _ => [JsonMatcherError.at_root "Datetime value needs to be a string"]

/-! ## Unfolding lemmas for the value-as-matcher adapter

`Json.json_matches` is defined by well-founded recursion; these equations
restate its six cases (with the `attach` scaffolding removed) for use in
proofs. -/

theorem Json.json_matches_null (v : Json) :
    Json.null.json_matches v = NullMatcher.json_matches v := by
  rw [Json.json_matches]

theorem Json.json_matches_bool (b : Bool) (v : Json) :
    (Json.bool b).json_matches v = (BooleanMatcher.exact b).json_matches v := by
  rw [Json.json_matches]

theorem Json.json_matches_num (n : JNum) (v : Json) :
    (Json.num n).json_matches v =
      (match n.as_i64 with
       | some integer => IntegerMatcher.json_matches ⟨integer⟩ v
       | none => NumberMatcher.json_matches ⟨(n.as_f64).getD 0⟩ v) := by
  rw [Json.json_matches]

theorem Json.json_matches_str (s : String) (v : Json) :
    (Json.str s).json_matches v = StrMatcher.json_matches s v := by
  rw [Json.json_matches]

theorem Json.json_matches_arr (vec : List Json) (v : Json) :
    (Json.arr vec).json_matches v
      = ArrayMatcherRefs.json_matches (vec.map Json.json_matches) v := by
  rw [Json.json_matches]
  congr 1
  exact List.attach_map_coe vec Json.json_matches

theorem Json.json_matches_obj (map : List (String × Json)) (v : Json) :
    (Json.obj map).json_matches v
      = ObjectMatcherRefs.json_matches false
          (map.map (fun kv => (kv.1, kv.2.json_matches))) v := by
  rw [Json.json_matches]
  congr 1
  exact List.attach_map_coe map (fun kv => (kv.1, kv.2.json_matches))

/-! ## General lemmas about sorting, lookup and the composite matchers -/

theorem sortKeys_perm (l : List String) : (sortKeys l).Perm l :=
  List.perm_insertionSort StrLe l

theorem mem_sortKeys {k : String} {l : List String} : k ∈ sortKeys l ↔ k ∈ l :=
  (sortKeys_perm l).mem_iff

theorem sortKeys_eq_nil {l : List String} : sortKeys l = [] ↔ l = [] := by
  constructor
  · intro h
    have := (sortKeys_perm l).length_eq
    rw [h] at this
    exact List.length_eq_zero.mp this.symm
  · intro h
    subst h
    rfl

theorem sortKeys_sorted (l : List String) : List.Sorted StrLe (sortKeys l) :=
  List.sorted_insertionSort StrLe l

theorem lookup_isSome_iff {β : Type} {k : String} {l : List (String × β)} :
    (List.lookup k l).isSome ↔ k ∈ l.map Prod.fst := by
  induction l with
  | nil => simp
  | cons p t ih =>
    rw [List.lookup_cons]
    by_cases h : k = p.1
    · simp [h]
    · simp only [List.map_cons, List.mem_cons]
      have hb : (k == p.1) = false := beq_false_of_ne h
      rw [hb]
      simp [ih, h]

theorem mem_keys_of_lookup {β : Type} {k : String} {l : List (String × β)} {v : β}
    (h : List.lookup k l = some v) : k ∈ l.map Prod.fst := by
  rw [← lookup_isSome_iff]
  simp [h]

theorem lookup_eq_some_iff_of_nodup {β : Type} {k : String} {l : List (String × β)}
    {v : β} (hnd : (l.map Prod.fst).Nodup) :
    List.lookup k l = some v ↔ (k, v) ∈ l := by
  induction l with
  | nil => simp
  | cons p t ih =>
    rw [List.map_cons, List.nodup_cons] at hnd
    rw [List.lookup_cons]
    by_cases h : k = p.1
    · subst h
      simp only [beq_self_eq_true]
      constructor
      · intro hv
        obtain ⟨p1, p2⟩ := p
        simp only [Option.some.injEq] at hv
        subst hv
        exact List.mem_cons_self _ _
      · intro hv
        rcases List.mem_cons.mp hv with h1 | h1
        · obtain ⟨p1, p2⟩ := p
          simp at h1
          simp [h1]
        · exact absurd (List.mem_map_of_mem Prod.fst h1) hnd.1
    · have hb : (k == p.1) = false := beq_false_of_ne h
      rw [hb]
      rw [ih hnd.2]
      constructor
      · intro hm; exact List.mem_cons_of_mem _ hm
      · intro hm
        rcases List.mem_cons.mp hm with h1 | h1
        · exact absurd (congrArg Prod.fst h1) h
        · exact h1

/-! ## Success characterizations of the composite matchers

A composite matcher returns the empty error list exactly when the candidate
has the right shape and every applicable child check succeeds. -/

theorem arrayRefs_nil_iff (elements : List Matcher) (vs : List Json) :
    ArrayMatcherRefs.json_matches elements (Json.arr vs) = [] ↔
      vs.length = elements.length ∧
      ∀ i (h1 : i < elements.length) (h2 : i < vs.length), elements[i] vs[i] = [] := by
  simp only [ArrayMatcherRefs.json_matches, List.append_eq_nil]
  constructor
  · rintro ⟨⟨hm, hu⟩, hc⟩
    have hlen : vs.length = elements.length := by
      by_cases h1 : vs.length < elements.length
      · rw [if_pos h1] at hm; exact absurd hm (by simp)
      · by_cases h2 : elements.length < vs.length
        · rw [if_pos h2] at hu; exact absurd hu (by simp)
        · omega
    refine ⟨hlen, ?_⟩
    intro i hi1 hi2
    rw [List.flatMap_eq_nil_iff] at hc
    have hmem : i ∈ List.range (min vs.length elements.length) :=
      List.mem_range.mpr (by omega)
    have := hc i hmem
    rw [List.getElem?_eq_getElem hi1, List.getElem?_eq_getElem hi2] at this
    exact List.map_eq_nil_iff.mp this
  · rintro ⟨hlen, hall⟩
    refine ⟨⟨?_, ?_⟩, ?_⟩
    · rw [if_neg (by omega)]
    · rw [if_neg (by omega)]
    · rw [List.flatMap_eq_nil_iff]
      intro i hmem
      rw [List.mem_range] at hmem
      have hi1 : i < elements.length := by omega
      have hi2 : i < vs.length := by omega
      rw [List.getElem?_eq_getElem hi1, List.getElem?_eq_getElem hi2]
      exact List.map_eq_nil_iff.mpr (hall i hi1 hi2)

theorem objectRefs_nil_iff (allow : Bool) (fields : List (String × Matcher))
    (map : List (String × Json)) :
    ObjectMatcherRefs.json_matches allow fields (Json.obj map) = [] ↔
      (∀ k ∈ fields.map Prod.fst, k ∈ map.map Prod.fst) ∧
      (allow = false → ∀ k ∈ map.map Prod.fst, k ∈ fields.map Prod.fst) ∧
      (∀ k m v, List.lookup k fields = some m → List.lookup k map = some v →
        m v = []) := by
  simp only [ObjectMatcherRefs.json_matches, List.append_eq_nil]
  have hmiss : ∀ (l : List String) (msg : String),
      (if l.isEmpty then ([] : List JsonMatcherError)
       else [JsonMatcherError.at_root msg]) = [] ↔ l = [] := by
    intro l msg
    by_cases h : l.isEmpty
    · simp [h, List.isEmpty_iff.mp h]
    · rw [if_neg h]
      simp only [List.isEmpty_iff] at h
      simp [h]
  have hcont : ∀ (l : List String) (k : String), l.contains k = true ↔ k ∈ l := by
    intro l k
    exact List.elem_iff
  constructor
  · rintro ⟨⟨hm, hu⟩, hc⟩
    rw [hmiss, sortKeys_eq_nil, List.filter_eq_nil_iff] at hm
    rw [List.flatMap_eq_nil_iff] at hc
    refine ⟨?_, ?_, ?_⟩
    · intro k hk
      have h1 := hm k (List.mem_dedup.mpr hk)
      simp only [Bool.not_eq_true', Bool.not_eq_false] at h1
      exact List.mem_dedup.mp ((hcont _ _).mp h1)
    · intro hfalse
      subst hfalse
      rw [if_neg (by simp)] at hu
      rw [hmiss, sortKeys_eq_nil, List.filter_eq_nil_iff] at hu
      intro k hk
      have h1 := hu k (List.mem_dedup.mpr hk)
      simp only [Bool.not_eq_true', Bool.not_eq_false] at h1
      exact List.mem_dedup.mp ((hcont _ _).mp h1)
    · intro k m v hlm hlv
      have hkf : k ∈ fields.map Prod.fst := mem_keys_of_lookup hlm
      have hkm : k ∈ map.map Prod.fst := mem_keys_of_lookup hlv
      have hkmem : k ∈ sortKeys (((fields.map Prod.fst).dedup).filter
          (fun k => ((map.map Prod.fst).dedup).contains k)) := by
        rw [mem_sortKeys, List.mem_filter]
        exact ⟨List.mem_dedup.mpr hkf, (hcont _ _).mpr (List.mem_dedup.mpr hkm)⟩
      have hbody := hc k hkmem
      rw [hlm, hlv] at hbody
      exact List.map_eq_nil_iff.mp hbody
  · rintro ⟨h1, h2, h3⟩
    refine ⟨⟨?_, ?_⟩, ?_⟩
    · rw [hmiss, sortKeys_eq_nil, List.filter_eq_nil_iff]
      intro k hk
      have := h1 k (List.mem_dedup.mp hk)
      simp only [Bool.not_eq_true', Bool.not_eq_false]
      exact (hcont _ _).mpr (List.mem_dedup.mpr this)
    · by_cases ha : allow = true
      · rw [if_pos ha]
      · have ha2 : allow = false := by
          cases allow
          · rfl
          · exact absurd rfl ha
        rw [if_neg ha]
        rw [hmiss, sortKeys_eq_nil, List.filter_eq_nil_iff]
        intro k hk
        have := h2 ha2 k (List.mem_dedup.mp hk)
        simp only [Bool.not_eq_true', Bool.not_eq_false]
        exact (hcont _ _).mpr (List.mem_dedup.mpr this)
    · rw [List.flatMap_eq_nil_iff]
      intro k hk
      rw [mem_sortKeys, List.mem_filter] at hk
      obtain ⟨hkf, hkm⟩ := hk
      have hkf2 : k ∈ fields.map Prod.fst := List.mem_dedup.mp hkf
      have hkm2 : k ∈ map.map Prod.fst :=
        List.mem_dedup.mp ((hcont _ _).mp hkm)
      obtain ⟨m, hm2⟩ := Option.isSome_iff_exists.mp (lookup_isSome_iff.mpr hkf2)
      obtain ⟨v, hv2⟩ := Option.isSome_iff_exists.mp (lookup_isSome_iff.mpr hkm2)
      rw [hm2, hv2]
      exact List.map_eq_nil_iff.mpr (h3 k m v hm2 hv2)
/-! ## Structural equality up to numeric representation

`Json.json_matches` is meant to implement exact structural equality.  For
numbers the code compares `as_i64` values when the expected number is
`i64`-representable and `as_f64` values otherwise, so the relation it
actually decides treats an expected float-variant number as equal to any
JSON number with the same `f64` value.  `jsonMatchEq` is that relation:
serde's structural equality relaxed in exactly the number case. -/

/-- The number comparison realised by the value-as-matcher adapter. -/
def JNum.matchEq (m v : JNum) : Prop :=
  match m.as_i64 with
  | some i => v.as_i64 = some i
  | none => v.as_f64 = m.as_f64

/-- Structural equality of JSON values (order-insensitive on object entries,
as serde's `Map` equality is) relaxed at numbers to `JNum.matchEq`. -/
def jsonMatchEq : Json → Json → Prop
  | .null, .null => True
  | .bool a, .bool b => a = b
  | .num a, .num b => a.matchEq b
  | .str a, .str b => a = b
  | .arr xs, .arr ys =>
    xs.length = ys.length ∧
      ∀ i (h1 : i < xs.length) (h2 : i < ys.length), jsonMatchEq xs[i] ys[i]
  | .obj ms, .obj vs =>
    (∀ k, k ∈ ms.map Prod.fst ↔ k ∈ vs.map Prod.fst) ∧
      ∀ p ∈ ms, ∀ q ∈ vs, p.1 = q.1 → jsonMatchEq p.2 q.2
  | _, _ => False
termination_by m _ => sizeOf m
decreasing_by
  · have h := List.sizeOf_lt_of_mem (List.getElem_mem h1)
    simp
    omega
  · have h := List.sizeOf_lt_of_mem (by exact ‹p ∈ ms›)
    obtain ⟨p1, p2⟩ := p
    simp at h ⊢
    omega

/-- Well-formedness of a modelled JSON value: object key lists are
duplicate-free, recursively (serde maps cannot hold duplicate keys). -/
def Json.WF : Json → Prop
  | .arr xs => ∀ x ∈ xs, Json.WF x
  | .obj kvs => (kvs.map Prod.fst).Nodup ∧ ∀ kv ∈ kvs, Json.WF kv.2
  | _ => True
termination_by j => sizeOf j
decreasing_by
  · have h := List.sizeOf_lt_of_mem (by exact ‹x ∈ xs›)
    simp
    omega
  · have h := List.sizeOf_lt_of_mem (by exact ‹kv ∈ kvs›)
    obtain ⟨k1, k2⟩ := kv
    simp at h ⊢
    omega

/-- Induction over `Json` with membership hypotheses for the nested lists. -/
def Json.recMem (P : Json → Prop) (hnull : P .null) (hbool : ∀ b, P (.bool b))
    (hnum : ∀ n, P (.num n)) (hstr : ∀ s, P (.str s))
    (harr : ∀ xs, (∀ x ∈ xs, P x) → P (.arr xs))
    (hobj : ∀ kvs, (∀ kv ∈ kvs, P kv.2) → P (.obj kvs)) : ∀ j, P j := fun j =>
  match j with
  | .null => hnull
  | .bool b => hbool b
  | .num n => hnum n
  | .str s => hstr s
  | .arr xs =>
    harr xs (fun x _ => Json.recMem P hnull hbool hnum hstr harr hobj x)
  | .obj kvs =>
    hobj kvs (fun kv _ => Json.recMem P hnull hbool hnum hstr harr hobj kv.2)
termination_by j => sizeOf j
decreasing_by
  · have h := List.sizeOf_lt_of_mem (by exact ‹x ∈ xs›)
    simp
    omega
  · have h := List.sizeOf_lt_of_mem (by exact ‹kv ∈ kvs›)
    obtain ⟨k1, k2⟩ := kv
    simp at h ⊢
    omega

theorem lookup_map_snd {β γ : Type} (g : β → γ) (k : String)
    (l : List (String × β)) :
    List.lookup k (l.map (fun kv => (kv.1, g kv.2))) = (List.lookup k l).map g := by
  induction l with
  | nil => simp
  | cons p t ih =>
    rw [List.map_cons, List.lookup_cons, List.lookup_cons]
    by_cases h : k = p.1
    · simp [h]
    · have hb : (k == p.1) = false := beq_false_of_ne h
      rw [hb]
      simp only [hb]
      exact ih

theorem arrayRefs_not_arr (elements : List Matcher) (v : Json)
    (h : ∀ vs, v ≠ Json.arr vs) :
    ArrayMatcherRefs.json_matches elements v
      = [JsonMatcherError.at_root "Value is not an array"] := by
  cases v with
  | arr vs => exact absurd rfl (h vs)
  | null => rfl
  | bool b => rfl
  | num n => rfl
  | str s => rfl
  | obj kvs => rfl

theorem objectRefs_not_obj (allow : Bool) (fields : List (String × Matcher))
    (v : Json) (h : ∀ kvs, v ≠ Json.obj kvs) :
    ObjectMatcherRefs.json_matches allow fields v
      = [JsonMatcherError.at_root "Value is not an object"] := by
  cases v with
  | obj kvs => exact absurd rfl (h kvs)
  | null => rfl
  | bool b => rfl
  | num n => rfl
  | str s => rfl
  | arr vs => rfl

/-! ## The relation decided by the value-as-matcher adapter -/

theorem JNum.as_f64_isSome (n : JNum) : ∃ q, n.as_f64 = some q := by
  cases n
  · exact ⟨_, rfl⟩
  · exact ⟨_, rfl⟩
  · exact ⟨_, rfl⟩

theorem json_matches_iff_matchEq :
    ∀ m v, m.WF → v.WF → (m.json_matches v = [] ↔ jsonMatchEq m v) := by
  intro m
  induction m using Json.recMem with
  | hnull =>
    intro v hwv hwm
    rw [Json.json_matches_null]
    cases v with
    | null => simp [NullMatcher.json_matches, jsonMatchEq]
    | bool a => simp [NullMatcher.json_matches, jsonMatchEq]
    | num a => simp [NullMatcher.json_matches, jsonMatchEq]
    | str a => simp [NullMatcher.json_matches, jsonMatchEq]
    | arr a => simp [NullMatcher.json_matches, jsonMatchEq]
    | obj a => simp [NullMatcher.json_matches, jsonMatchEq]
  | hbool b =>
    intro v hwv hwm
    rw [Json.json_matches_bool]
    cases v with
    | bool a =>
      simp only [BooleanMatcher.json_matches, jsonMatchEq]
      by_cases h : a = b
      · simp [h]
      · simp [h, Ne.symm h]
    | null => simp [BooleanMatcher.json_matches, jsonMatchEq]
    | num a => simp [BooleanMatcher.json_matches, jsonMatchEq]
    | str a => simp [BooleanMatcher.json_matches, jsonMatchEq]
    | arr a => simp [BooleanMatcher.json_matches, jsonMatchEq]
    | obj a => simp [BooleanMatcher.json_matches, jsonMatchEq]
  | hstr s =>
    intro v hwv hwm
    rw [Json.json_matches_str]
    cases v with
    | str a =>
      simp only [StrMatcher.json_matches, jsonMatchEq]
      by_cases h : a = s
      · simp [h]
      · simp [h, Ne.symm h]
    | null => simp [StrMatcher.json_matches, jsonMatchEq]
    | bool a => simp [StrMatcher.json_matches, jsonMatchEq]
    | num a => simp [StrMatcher.json_matches, jsonMatchEq]
    | arr a => simp [StrMatcher.json_matches, jsonMatchEq]
    | obj a => simp [StrMatcher.json_matches, jsonMatchEq]
  | hnum n =>
    intro v hwv hwm
    rw [Json.json_matches_num]
    cases hni : n.as_i64 with
    | some i =>
      cases v with
      | num n2 =>
        simp only [IntegerMatcher.json_matches, jsonMatchEq, JNum.matchEq, hni]
        cases hni2 : n2.as_i64 with
        | some a =>
          by_cases h : a = i
          · simp [h]
          · simp [h]
        | none => simp
      | null => simp [IntegerMatcher.json_matches, jsonMatchEq]
      | bool a => simp [IntegerMatcher.json_matches, jsonMatchEq]
      | str a => simp [IntegerMatcher.json_matches, jsonMatchEq]
      | arr a => simp [IntegerMatcher.json_matches, jsonMatchEq]
      | obj a => simp [IntegerMatcher.json_matches, jsonMatchEq]
    | none =>
      obtain ⟨q, hq⟩ := JNum.as_f64_isSome n
      rw [hq]
      cases v with
      | num n2 =>
        simp only [NumberMatcher.json_matches, jsonMatchEq, JNum.matchEq, hni]
        obtain ⟨q2, hq2⟩ := JNum.as_f64_isSome n2
        rw [hq, hq2]
        simp only [Option.getD_some, Option.some.injEq]
        by_cases h : q2 = q
        · simp [h]
        · simp [h]
      | null => simp [NumberMatcher.json_matches, jsonMatchEq]
      | bool a => simp [NumberMatcher.json_matches, jsonMatchEq]
      | str a => simp [NumberMatcher.json_matches, jsonMatchEq]
      | arr a => simp [NumberMatcher.json_matches, jsonMatchEq]
      | obj a => simp [NumberMatcher.json_matches, jsonMatchEq]
  | harr xs ih =>
    intro v hwm hwv
    cases v with
    | arr ys =>
      rw [Json.json_matches_arr, arrayRefs_nil_iff]
      rw [Json.WF] at hwm hwv
      rw [jsonMatchEq]
      simp only [List.length_map]
      constructor
      · rintro ⟨hlen, hall⟩
        refine ⟨hlen.symm, ?_⟩
        intro i h1 h2
        have := hall i h1 h2
        rw [List.getElem_map] at this
        exact (ih xs[i] (List.getElem_mem h1) ys[i] (hwm _ (List.getElem_mem h1))
          (hwv _ (List.getElem_mem h2))).mp this
      · rintro ⟨hlen, hall⟩
        refine ⟨hlen.symm, ?_⟩
        intro i h1 h2
        rw [List.getElem_map]
        exact (ih xs[i] (List.getElem_mem h1) ys[i] (hwm _ (List.getElem_mem h1))
          (hwv _ (List.getElem_mem h2))).mpr (hall i h1 h2)
    | null =>
      rw [Json.json_matches_arr, arrayRefs_not_arr _ _ (fun vs h => Json.noConfusion h)]
      simp [jsonMatchEq]
    | bool b =>
      rw [Json.json_matches_arr, arrayRefs_not_arr _ _ (fun vs h => Json.noConfusion h)]
      simp [jsonMatchEq]
    | num n2 =>
      rw [Json.json_matches_arr, arrayRefs_not_arr _ _ (fun vs h => Json.noConfusion h)]
      simp [jsonMatchEq]
    | str s2 =>
      rw [Json.json_matches_arr, arrayRefs_not_arr _ _ (fun vs h => Json.noConfusion h)]
      simp [jsonMatchEq]
    | obj kvs =>
      rw [Json.json_matches_arr, arrayRefs_not_arr _ _ (fun vs h => Json.noConfusion h)]
      simp [jsonMatchEq]
  | hobj ms ih =>
    intro v hwm hwv
    cases v with
    | obj vs =>
      rw [Json.json_matches_obj, objectRefs_nil_iff]
      rw [Json.WF] at hwm hwv
      rw [jsonMatchEq]
      obtain ⟨hndm, hwm2⟩ := hwm
      obtain ⟨hndv, hwv2⟩ := hwv
      have hkeys : (ms.map (fun kv => (kv.1, kv.2.json_matches))).map Prod.fst
          = ms.map Prod.fst := by
        rw [List.map_map]
        rfl
      rw [hkeys]
      constructor
      · rintro ⟨h1, h2, h3⟩
        constructor
        · intro k
          exact ⟨h1 k, h2 rfl k⟩
        · intro p hp q hq hkeq
          have hlm : List.lookup p.1 ms = some p.2 :=
            (lookup_eq_some_iff_of_nodup hndm).mpr hp
          have hlv : List.lookup q.1 vs = some q.2 :=
            (lookup_eq_some_iff_of_nodup hndv).mpr hq
          have hlf : List.lookup p.1 (ms.map (fun kv => (kv.1, kv.2.json_matches)))
              = some p.2.json_matches := by
            rw [lookup_map_snd, hlm]
            rfl
          have := h3 p.1 p.2.json_matches q.2 hlf (hkeq ▸ hlv)
          exact (ih p hp q.2 (hwm2 p hp) (hwv2 q hq)).mp this
      · rintro ⟨h1, h2⟩
        refine ⟨fun k => (h1 k).mp, fun _ k => (h1 k).mpr, ?_⟩
        intro k mf v2 hlf hlv
        rw [lookup_map_snd] at hlf
        cases hlm : List.lookup k ms with
        | none => rw [hlm] at hlf; exact absurd hlf (by simp)
        | some x =>
          rw [hlm] at hlf
          simp only [Option.map_some', Option.some.injEq] at hlf
          have hpmem : (k, x) ∈ ms := (lookup_eq_some_iff_of_nodup hndm).mp hlm
          have hqmem : (k, v2) ∈ vs := (lookup_eq_some_iff_of_nodup hndv).mp hlv
          have := h2 (k, x) hpmem (k, v2) hqmem rfl
          rw [← hlf]
          exact (ih (k, x) hpmem v2 (hwm2 _ hpmem) (hwv2 _ hqmem)).mpr this
    | null =>
      rw [Json.json_matches_obj, objectRefs_not_obj _ _ _ (fun vs h => Json.noConfusion h)]
      simp [jsonMatchEq]
    | bool b =>
      rw [Json.json_matches_obj, objectRefs_not_obj _ _ _ (fun vs h => Json.noConfusion h)]
      simp [jsonMatchEq]
    | num n2 =>
      rw [Json.json_matches_obj, objectRefs_not_obj _ _ _ (fun vs h => Json.noConfusion h)]
      simp [jsonMatchEq]
    | str s2 =>
      rw [Json.json_matches_obj, objectRefs_not_obj _ _ _ (fun vs h => Json.noConfusion h)]
      simp [jsonMatchEq]
    | arr ys =>
      rw [Json.json_matches_obj, objectRefs_not_obj _ _ _ (fun vs h => Json.noConfusion h)]
      simp [jsonMatchEq]

theorem mem_of_lookup_eq_some {β : Type} {k : String} {l : List (String × β)} {v : β}
    (h : List.lookup k l = some v) : (k, v) ∈ l := by
  induction l with
  | nil => simp at h
  | cons p t ih =>
    rw [List.lookup_cons] at h
    by_cases hk : k = p.1
    · have hb : (k == p.1) = true := beq_of_eq hk
      simp only [hb, Option.some.injEq] at h
      obtain ⟨p1, p2⟩ := p
      simp only at hk h
      rw [hk, h]
      exact List.mem_cons_self _ _
    · have hb : (k == p.1) = false := beq_false_of_ne hk
      simp only [hb] at h
      exact List.mem_cons_of_mem _ (ih h)

/-! ## Path well-formedness: the re-rooting invariant -/

/-- A well-formed error path: it starts with the root marker and contains no
further root marker. -/
def GoodPath (p : JsonPath) : Prop :=
  p.head? = some JsonPathElement.root ∧ ∀ q ∈ p.tail, q ≠ JsonPathElement.root

/-- All errors in a result carry well-formed paths. -/
def GoodErrors (errs : List JsonMatcherError) : Prop := ∀ e ∈ errs, GoodPath e.path

/-- A matcher all of whose results carry well-formed paths. -/
def GoodMatcher (m : Matcher) : Prop := ∀ v, GoodErrors (m v)

theorem goodPath_default : GoodPath JsonPath.default := by
  constructor
  · rfl
  · intro q hq
    simp [JsonPath.default] at hq

theorem goodErrors_at_root (msg : String) :
    GoodErrors [JsonMatcherError.at_root msg] := by
  intro e he
  rw [List.mem_singleton] at he
  subst he
  exact goodPath_default

theorem goodErrors_nil : GoodErrors [] := by
  intro e he
  simp at he

theorem goodErrors_append {l1 l2 : List JsonMatcherError} (h1 : GoodErrors l1)
    (h2 : GoodErrors l2) : GoodErrors (l1 ++ l2) := by
  intro e he
  rcases List.mem_append.mp he with h | h
  · exact h1 e h
  · exact h2 e h

theorem goodErrors_ite {c : Prop} [Decidable c] {l1 l2 : List JsonMatcherError}
    (h1 : GoodErrors l1) (h2 : GoodErrors l2) : GoodErrors (if c then l1 else l2) := by
  by_cases h : c
  · rwa [if_pos h]
  · rwa [if_neg h]

/-- Re-rooting a child error with a root-stripped prepend: when the child path
already starts with the root marker, the result is exactly the root marker,
then the parent's one locator segment, then the rest of the child path. -/
theorem pathExtend_strips_root (seg : JsonPathElement) (rest : List JsonPathElement) :
    JsonPath.extend [JsonPathElement.root, seg] (JsonPathElement.root :: rest)
      = JsonPathElement.root :: seg :: rest := rfl

theorem goodPath_reroot {seg : JsonPathElement} (hseg : seg ≠ JsonPathElement.root)
    {p : JsonPath} (hp : GoodPath p) :
    GoodPath (JsonPath.extend [JsonPathElement.root, seg] p) := by
  obtain ⟨hhead, htail⟩ := hp
  cases p with
  | nil => simp at hhead
  | cons a rest =>
    simp only [List.head?_cons, Option.some.injEq] at hhead
    subst hhead
    rw [pathExtend_strips_root]
    constructor
    · rfl
    · intro q hq
      rcases List.mem_cons.mp hq with h | h
      · subst h; exact hseg
      · exact htail q h

theorem goodErrors_reroot {seg : JsonPathElement} (hseg : seg ≠ JsonPathElement.root)
    {l : List JsonMatcherError} (hl : GoodErrors l) :
    GoodErrors (l.map (rerootError seg)) := by
  intro e he
  rw [List.mem_map] at he
  obtain ⟨e0, he0, rfl⟩ := he
  exact goodPath_reroot hseg (hl e0 he0)

/-- The array matcher preserves path well-formedness. -/
theorem goodMatcher_arrayRefs {elements : List Matcher}
    (h : ∀ m ∈ elements, GoodMatcher m) :
    GoodMatcher (ArrayMatcherRefs.json_matches elements) := by
  intro v
  cases v with
  | arr vs =>
    simp only [ArrayMatcherRefs.json_matches]
    refine goodErrors_append (goodErrors_append ?_ ?_) ?_
    · exact goodErrors_ite (goodErrors_at_root _) goodErrors_nil
    · exact goodErrors_ite (goodErrors_at_root _) goodErrors_nil
    · intro e he
      rw [List.mem_flatMap] at he
      obtain ⟨i, _, hbody⟩ := he
      cases hget : elements[i]? with
      | none => rw [hget] at hbody; simp at hbody
      | some m =>
        cases hgv : vs[i]? with
        | none => rw [hget, hgv] at hbody; simp at hbody
        | some x =>
          rw [hget, hgv] at hbody
          have hm : m ∈ elements := by
            have := List.getElem?_eq_some_iff.mp hget
            obtain ⟨hlt, heq⟩ := this
            rw [← heq]
            exact List.getElem_mem hlt
          exact goodErrors_reroot (by simp) (h m hm x) e hbody
  | null => exact goodErrors_at_root _
  | bool b => exact goodErrors_at_root _
  | num n => exact goodErrors_at_root _
  | str s => exact goodErrors_at_root _
  | obj kvs => exact goodErrors_at_root _

/-- The object matcher preserves path well-formedness. -/
theorem goodMatcher_objectRefs {allow : Bool} {fields : List (String × Matcher)}
    (h : ∀ kv ∈ fields, GoodMatcher kv.2) :
    GoodMatcher (ObjectMatcherRefs.json_matches allow fields) := by
  intro v
  cases v with
  | obj map =>
    simp only [ObjectMatcherRefs.json_matches]
    refine goodErrors_append (goodErrors_append ?_ ?_) ?_
    · exact goodErrors_ite goodErrors_nil (goodErrors_at_root _)
    · refine goodErrors_ite goodErrors_nil
        (goodErrors_ite goodErrors_nil (goodErrors_at_root _))
    · intro e he
      rw [List.mem_flatMap] at he
      obtain ⟨k, _, hbody⟩ := he
      cases hgf : List.lookup k fields with
      | none => rw [hgf] at hbody; simp at hbody
      | some m =>
        cases hgv : List.lookup k map with
        | none => rw [hgf, hgv] at hbody; simp at hbody
        | some x =>
          rw [hgf, hgv] at hbody
          have hmem : (k, m) ∈ fields := mem_of_lookup_eq_some hgf
          exact goodErrors_reroot (by simp) (h (k, m) hmem x) e hbody
  | null => exact goodErrors_at_root _
  | bool b => exact goodErrors_at_root _
  | num n => exact goodErrors_at_root _
  | str s => exact goodErrors_at_root _
  | arr vs => exact goodErrors_at_root _

theorem goodMatcher_nullMatcher : GoodMatcher NullMatcher.json_matches := by
  intro v
  cases v with
  | null => exact goodErrors_nil
  | bool b => exact goodErrors_at_root _
  | num n => exact goodErrors_at_root _
  | str s => exact goodErrors_at_root _
  | arr a => exact goodErrors_at_root _
  | obj a => exact goodErrors_at_root _

theorem goodMatcher_booleanMatcher (self : BooleanMatcher) :
    GoodMatcher self.json_matches := by
  intro v
  cases v with
  | bool b =>
    cases self with
    | exact e =>
      simp only [BooleanMatcher.json_matches]
      exact goodErrors_ite (goodErrors_at_root _) goodErrors_nil
    | any => exact goodErrors_nil
  | null => exact goodErrors_at_root _
  | num n => exact goodErrors_at_root _
  | str s => exact goodErrors_at_root _
  | arr a => exact goodErrors_at_root _
  | obj a => exact goodErrors_at_root _

theorem goodMatcher_integerMatcher (self : IntegerMatcher) :
    GoodMatcher self.json_matches := by
  intro v
  cases v with
  | num n =>
    simp only [IntegerMatcher.json_matches]
    cases n.as_i64 with
    | none => exact goodErrors_at_root _
    | some a => exact goodErrors_ite goodErrors_nil (goodErrors_at_root _)
  | null => exact goodErrors_at_root _
  | bool b => exact goodErrors_at_root _
  | str s => exact goodErrors_at_root _
  | arr a => exact goodErrors_at_root _
  | obj a => exact goodErrors_at_root _

theorem goodMatcher_numberMatcher (self : NumberMatcher) :
    GoodMatcher self.json_matches := by
  intro v
  cases v with
  | num n =>
    simp only [NumberMatcher.json_matches]
    cases n.as_f64 with
    | none => exact goodErrors_at_root _
    | some a => exact goodErrors_ite goodErrors_nil (goodErrors_at_root _)
  | null => exact goodErrors_at_root _
  | bool b => exact goodErrors_at_root _
  | str s => exact goodErrors_at_root _
  | arr a => exact goodErrors_at_root _
  | obj a => exact goodErrors_at_root _

theorem goodMatcher_strMatcher (expected : String) :
    GoodMatcher (StrMatcher.json_matches expected) := by
  intro v
  cases v with
  | str s =>
    simp only [StrMatcher.json_matches]
    exact goodErrors_ite goodErrors_nil (goodErrors_at_root _)
  | null => exact goodErrors_at_root _
  | bool b => exact goodErrors_at_root _
  | num n => exact goodErrors_at_root _
  | arr a => exact goodErrors_at_root _
  | obj a => exact goodErrors_at_root _

/-- The value-as-matcher adapter always produces well-formed paths. -/
theorem goodMatcher_value (m : Json) : GoodMatcher m.json_matches := by
  induction m using Json.recMem with
  | hnull =>
    intro v
    rw [Json.json_matches_null]
    exact goodMatcher_nullMatcher v
  | hbool b =>
    intro v
    rw [Json.json_matches_bool]
    exact goodMatcher_booleanMatcher _ v
  | hnum n =>
    intro v
    rw [Json.json_matches_num]
    cases n.as_i64 with
    | some i => exact goodMatcher_integerMatcher _ v
    | none => exact goodMatcher_numberMatcher _ v
  | hstr s =>
    intro v
    rw [Json.json_matches_str]
    exact goodMatcher_strMatcher _ v
  | harr xs ih =>
    intro v
    rw [Json.json_matches_arr]
    refine goodMatcher_arrayRefs ?_ v
    intro mm hmm
    rw [List.mem_map] at hmm
    obtain ⟨x, hx, rfl⟩ := hmm
    exact ih x hx
  | hobj ms ih =>
    intro v
    rw [Json.json_matches_obj]
    refine goodMatcher_objectRefs ?_ v
    intro kv hkv
    rw [List.mem_map] at hkv
    obtain ⟨p, hp, rfl⟩ := hkv
    exact ih p hp

theorem intercalate_go_foldl (s : String) (acc : String) (l : List String) :
    String.intercalate.go acc s l = l.foldl (fun a x => a ++ s ++ x) acc := by
  induction l generalizing acc with
  | nil => rfl
  | cons a as ih =>
    rw [String.intercalate.go, List.foldl_cons]
    exact ih (acc ++ s ++ a)

/-- Rendering a well-formed path: the root marker renders as `$` and every
further segment contributes `"." ++ its own text`. -/
theorem render_root_cons (segs : List JsonPathElement) :
    JsonPath.render (JsonPathElement.root :: segs)
      = segs.foldl (fun acc e => acc ++ "." ++ e.render) "$" := by
  rw [JsonPath.render, List.map_cons]
  show String.intercalate.go "$" "." (segs.map JsonPathElement.render) = _
  rw [intercalate_go_foldl, List.foldl_map]

/-! ## Spec-side descriptions of the composite matchers' output

These restate, in the specification's own vocabulary, the three blocks an
object match result is built from, and the per-element block of an array
match result; the aggregation theorems prove the implementations equal to
them. -/

/-- Spec-side: one error listing the expected-minus-actual key set,
alphabetically sorted and comma-joined, if non-empty. -/
def specObjectMissingErrors (fields : List (String × Matcher))
    (vs : List (String × Json)) : List JsonMatcherError :=
  let diff := sortKeys (((fields.map Prod.fst).dedup).filter
    (fun k => !(((vs.map Prod.fst).dedup).contains k)))
  if diff = [] then []
  else [JsonMatcherError.at_root
    ("Object is missing keys: " ++ String.intercalate ", " diff)]

/-- Spec-side: one error listing the actual-minus-expected key set,
alphabetically sorted and comma-joined, if non-empty. -/
def specObjectUnexpectedErrors (fields : List (String × Matcher))
    (vs : List (String × Json)) : List JsonMatcherError :=
  let diff := sortKeys (((vs.map Prod.fst).dedup).filter
    (fun k => !(((fields.map Prod.fst).dedup).contains k)))
  if diff = [] then []
  else [JsonMatcherError.at_root
    ("Object has unexpected keys: " ++ String.intercalate ", " diff)]

/-- Spec-side: the per-field errors, for the keys in the intersection of the
two key sets processed in sorted order, each child error re-rooted under its
key. -/
def specObjectFieldErrors (fields : List (String × Matcher))
    (vs : List (String × Json)) : List JsonMatcherError :=
  (sortKeys (((fields.map Prod.fst).dedup).filter
      (fun k => ((vs.map Prod.fst).dedup).contains k))).flatMap
    (fun key =>
      match List.lookup key fields, List.lookup key vs with
      | some matcher, some v => (matcher v).map (rerootError (JsonPathElement.key key))
      | _, _ => [])

/-- Spec-side: the per-element errors of an array match, for every index
below the shorter of the two lengths, each child error re-rooted under its
index. -/
def specArrayElementErrors (elements : List Matcher) (vs : List Json) :
    List JsonMatcherError :=
  (List.range (min vs.length elements.length)).flatMap (fun index =>
    match elements[index]?, vs[index]? with
    | some matcher, some v => (matcher v).map (rerootError (JsonPathElement.index index))
    | _, _ => [])

/-- C2: against an object candidate, the (strict) object matcher's result is
always the missing-keys block, then the unexpected-keys block, then the
per-field errors in sorted key order — each block holding at most one error
and listing its sorted key set; in particular the matcher expecting a string
at key a and anything at key b, matched against the object with keys a (a
number) and c, yields exactly the three errors of the claim in order. -/
theorem object_matcher_aggregation_and_ordering :
    (∀ (fields : List (String × Matcher)) (vs : List (String × Json)),
        ObjectMatcherRefs.json_matches false fields (Json.obj vs)
          = specObjectMissingErrors fields vs ++ specObjectUnexpectedErrors fields vs
              ++ specObjectFieldErrors fields vs) ∧
    (∀ fields vs, (specObjectMissingErrors fields vs).length ≤ 1 ∧
        (specObjectUnexpectedErrors fields vs).length ≤ 1) ∧
    (∀ l : List String, List.Sorted StrLe (sortKeys l)) ∧
    (ObjectMatcherRefs.json_matches false
        [("a", StrMatcher.json_matches "hello"), ("b", StrMatcher.json_matches "three")]
        (Json.obj [("a", Json.num (JNum.posInt 2)), ("c", Json.num (JNum.posInt 1))])
      = [JsonMatcherError.at_root "Object is missing keys: b",
         JsonMatcherError.at_root "Object has unexpected keys: c",
         { path := [JsonPathElement.root, JsonPathElement.key "a"],
           message := "Value is not a string" }]) := by
  refine ⟨?_, ?_, sortKeys_sorted, by decide⟩
  · intro fields vs
    simp only [ObjectMatcherRefs.json_matches, specObjectMissingErrors,
      specObjectUnexpectedErrors, specObjectFieldErrors, List.isEmpty_iff,
      Bool.false_eq_true, if_false]
  · intro fields vs
    constructor
    · rw [specObjectMissingErrors]
      split
      · simp
      · simp
    · rw [specObjectUnexpectedErrors]
      split
      · simp
      · simp

/-- C3: array cardinality reporting.  When the candidate array is shorter
than the matcher, the result is exactly one length error (singular wording
for one missing index, `lo..hi` wording otherwise) followed by the
per-element errors of the shared indices; symmetrically when longer; and the
three concrete instances of the claim hold. -/
theorem array_matcher_cardinality :
    (∀ (elements : List Matcher) (vs : List Json), vs.length < elements.length →
        ArrayMatcherRefs.json_matches elements (Json.arr vs)
          = JsonMatcherError.at_root
              (if vs.length = elements.length - 1 then
                "Array is missing index " ++ toString vs.length
              else
                "Array is missing indexes: " ++ toString vs.length ++ ".." ++
                  toString (elements.length - 1))
            :: specArrayElementErrors elements vs) ∧
    (∀ (elements : List Matcher) (vs : List Json), elements.length < vs.length →
        ArrayMatcherRefs.json_matches elements (Json.arr vs)
          = JsonMatcherError.at_root
              (if elements.length = vs.length - 1 then
                "Array has unexpected index " ++ toString elements.length
              else
                "Array has unexpected indexes: " ++ toString elements.length ++ ".." ++
                  toString (vs.length - 1))
            :: specArrayElementErrors elements vs) ∧
    (∀ (elements : List Matcher) (vs : List Json), elements.length = vs.length →
        ArrayMatcherRefs.json_matches elements (Json.arr vs)
          = specArrayElementErrors elements vs) ∧
    (ArrayMatcherRefs.json_matches [AnyMatcher.new.json_matches, AnyMatcher.new.json_matches]
        (Json.arr [Json.null])
      = [JsonMatcherError.at_root "Array is missing index 1"]) ∧
    (ArrayMatcherRefs.json_matches [AnyMatcher.new.json_matches, AnyMatcher.new.json_matches]
        (Json.arr [Json.null, Json.null, Json.null])
      = [JsonMatcherError.at_root "Array has unexpected index 2"]) ∧
    (ArrayMatcherRefs.json_matches [AnyMatcher.new.json_matches, AnyMatcher.new.json_matches]
        (Json.arr [Json.null, Json.null, Json.null, Json.null, Json.null])
      = [JsonMatcherError.at_root "Array has unexpected indexes: 2..4"]) := by
  refine ⟨?_, ?_, ?_, by decide, by decide, by decide⟩
  · intro elements vs h
    simp only [ArrayMatcherRefs.json_matches, specArrayElementErrors]
    rw [if_pos h, if_neg (show ¬ elements.length < vs.length by omega)]
    simp
  · intro elements vs h
    simp only [ArrayMatcherRefs.json_matches, specArrayElementErrors]
    rw [if_neg (show ¬ vs.length < elements.length by omega), if_pos h]
    simp
  · intro elements vs h
    simp only [ArrayMatcherRefs.json_matches, specArrayElementErrors]
    rw [if_neg (show ¬ vs.length < elements.length by omega),
      if_neg (show ¬ elements.length < vs.length by omega)]
    simp

/-- C1 counterexample: the JSON float 4.0 used as a matcher accepts the JSON
integer 4 (the float matcher compares `as_f64` values), yet the two values
are not structurally equal (serde numbers of different variants are unequal),
so "empty errors iff structurally equal" fails. -/
theorem value_matcher_exactness_counterexample :
    (Json.num (JNum.float 4)).json_matches (Json.num (JNum.posInt 4)) = [] ∧
      Json.num (JNum.float 4) ≠ Json.num (JNum.posInt 4) := by
  constructor
  · rw [Json.json_matches_num]
    decide
  · intro h
    injection h with h2
    exact JNum.noConfusion h2

/-- C1 amended: for well-formed values, a JSON value used as a matcher accepts
exactly the values structurally equal to it — with equality relaxed at
numbers so that a float-variant expected number accepts any JSON number with
the same f64 value — recursively through arrays and objects, objects
disallowing unexpected keys. -/
theorem value_matcher_exactness (m v : Json) (hm : m.WF) (hv : v.WF) :
    m.json_matches v = [] ↔ jsonMatchEq m v :=
  json_matches_iff_matchEq m v hm hv

/-- Witness for the amended C1 at a concrete well-formed pair. -/
theorem value_matcher_exactness_witness :
    (Json.obj [("a", Json.null)]).WF ∧ (Json.obj [("a", Json.null)]).WF ∧
      ((Json.obj [("a", Json.null)]).json_matches (Json.obj [("a", Json.null)]) = []
        ↔ jsonMatchEq (Json.obj [("a", Json.null)]) (Json.obj [("a", Json.null)])) := by
  have hwf : (Json.obj [("a", Json.null)]).WF := by
    rw [Json.WF]
    refine ⟨by simp, ?_⟩
    intro kv hkv
    rw [List.mem_singleton] at hkv
    subst hkv
    show Json.WF Json.null
    simp [Json.WF]
  exact ⟨hwf, hwf, value_matcher_exactness _ _ hwf hwf⟩

/-- C4: the path re-rooting invariant and rendering.  Composing matchers
preserves well-formed error paths (one leading root marker and no other):
the array and object combinators produce well-formed paths whenever their
children do, every literal JSON value used as a matcher does, re-rooting
prepends exactly one segment while stripping the child's duplicate leading
root marker, and a well-formed path renders as `$` followed by `.segment`
for each further segment (indices decimal, keys literal). -/
theorem path_rerooting_invariant :
    (∀ (elements : List Matcher), (∀ m ∈ elements, GoodMatcher m) →
        GoodMatcher (ArrayMatcherRefs.json_matches elements)) ∧
    (∀ (allow : Bool) (fields : List (String × Matcher)),
        (∀ kv ∈ fields, GoodMatcher kv.2) →
        GoodMatcher (ObjectMatcherRefs.json_matches allow fields)) ∧
    (∀ m : Json, GoodMatcher m.json_matches) ∧
    (∀ (seg : JsonPathElement) (rest : List JsonPathElement),
        JsonPath.extend [JsonPathElement.root, seg] (JsonPathElement.root :: rest)
          = JsonPathElement.root :: seg :: rest) ∧
    (∀ segs : List JsonPathElement,
        JsonPath.render (JsonPathElement.root :: segs)
          = segs.foldl (fun acc e => acc ++ "." ++ e.render) "$") :=
  ⟨fun _ h => goodMatcher_arrayRefs h, fun _ _ h => goodMatcher_objectRefs h,
    goodMatcher_value, pathExtend_strips_root, render_root_cons⟩

/-- C5 counterexample: the float matcher expecting 4.0 accepts the
integer-valued JSON number 4 instead of reporting a representability
mismatch — integer-to-float coercion does happen. -/
theorem float_matcher_no_coercion_counterexample :
    NumberMatcher.json_matches ⟨4⟩ (Json.num (JNum.posInt 4)) = [] := by decide

/-- C5 amended: the float matcher accepts an integer-valued JSON number
exactly when the number's f64 value equals the expected float; the
integer-representation branch never rejects it outright. -/
theorem float_matcher_coercion (F : ℚ) (n : JNum) (i : Int)
    (h : n.as_i64 = some i) :
    NumberMatcher.json_matches ⟨F⟩ (Json.num n) = [] ↔ n.as_f64 = some F := by
  obtain ⟨q, hq⟩ := JNum.as_f64_isSome n
  simp only [NumberMatcher.json_matches, hq]
  by_cases hqF : q = F
  · simp [hqF]
  · simp [hqF]

/-- Witness for the amended C5 at the concrete pair 4.0 / 4. -/
theorem float_matcher_coercion_witness :
    (JNum.posInt 4).as_i64 = some 4 ∧
      (NumberMatcher.json_matches ⟨4⟩ (Json.num (JNum.posInt 4)) = []
        ↔ (JNum.posInt 4).as_f64 = some 4) :=
  ⟨by decide, float_matcher_coercion 4 (JNum.posInt 4) 4 (by decide)⟩

/-- C6 counterexample: the exact-true boolean matcher against `false` yields
the single message "Value is not true", which does not embed the actual
value: the text "false" occurs nowhere in it. -/
theorem boolean_mismatch_message_counterexample :
    (BooleanMatcher.exact true).json_matches (Json.bool false)
        = [JsonMatcherError.at_root "Value is not true"] ∧
      ¬ ("false".data <:+: "Value is not true".data) := by
  constructor
  · decide
  · decide

/-- C6 amended: the exact boolean matcher against an unequal boolean yields
exactly one error embedding the expected value only, worded
"Value is not {expected}"; the any variant never errors on a boolean. -/
theorem boolean_mismatch_message (b actual : Bool) :
    ((BooleanMatcher.exact b).json_matches (Json.bool actual)
        = if actual = b then []
          else [JsonMatcherError.at_root ("Value is not " ++ toString b)]) ∧
      BooleanMatcher.any.json_matches (Json.bool actual) = [] := by
  constructor
  · simp only [BooleanMatcher.json_matches]
    by_cases h : actual = b
    · simp [h]
    · simp [h]
  · rfl

/-- C7: the permissive object matcher succeeds exactly when every expected
key is present with a successful per-field match — candidate keys outside
the expected set produce no error — while missing expected keys still
produce the missing-keys error; with the two concrete instances of the
claim. -/
theorem permissive_object_matcher :
    (∀ (fields : List (String × Matcher)) (vs : List (String × Json)),
        ObjectMatcherRefs.json_matches true fields (Json.obj vs) = [] ↔
          (∀ k ∈ fields.map Prod.fst, k ∈ vs.map Prod.fst) ∧
          (∀ k m v, List.lookup k fields = some m → List.lookup k vs = some v →
            m v = [])) ∧
    (ObjectMatcherRefs.json_matches true [("a", IntegerMatcher.json_matches ⟨1⟩)]
        (Json.obj [("a", Json.num (JNum.posInt 1)), ("b", Json.num (JNum.posInt 2))])
      = []) ∧
    (ObjectMatcherRefs.json_matches true [("a", IntegerMatcher.json_matches ⟨1⟩)]
        (Json.obj [("b", Json.num (JNum.posInt 2))])
      = [JsonMatcherError.at_root "Object is missing keys: a"]) := by
  refine ⟨?_, by decide, by decide⟩
  intro fields vs
  rw [objectRefs_nil_iff]
  simp

/-- C8: the bounded u16 matcher.  In numeric mode it accepts exactly the
i64-valued JSON numbers within `0..=65535` and rejects the rest of them with
"Integer out of bounds for u16"; in string mode it accepts exactly the
strings that parse as a base-10 u16; with the claim's concrete instances
(0 and 65535 accepted; -1 and 65536 rejected; "0042" accepted, "42.5",
" 42 " and "" rejected with "Expected number fitting u16"). -/
theorem u16_matcher_bounds :
    (∀ (n : JNum) (i : Int), n.as_i64 = some i →
        U16Matcher.json_matches ⟨false⟩ (Json.num n)
          = if 0 ≤ i ∧ i ≤ 65535 then []
            else [JsonMatcherError.at_root "Integer out of bounds for u16"]) ∧
    (∀ s : String,
        U16Matcher.json_matches ⟨true⟩ (Json.str s)
          = if (parseU16 s).isSome then []
            else [JsonMatcherError.at_root "Expected number fitting u16"]) ∧
    U16Matcher.json_matches ⟨false⟩ (Json.num (JNum.posInt 0)) = [] ∧
    U16Matcher.json_matches ⟨false⟩ (Json.num (JNum.posInt 65535)) = [] ∧
    (U16Matcher.json_matches ⟨false⟩ (Json.num (JNum.negInt (-1)))
      = [JsonMatcherError.at_root "Integer out of bounds for u16"]) ∧
    (U16Matcher.json_matches ⟨false⟩ (Json.num (JNum.posInt 65536))
      = [JsonMatcherError.at_root "Integer out of bounds for u16"]) ∧
    U16Matcher.json_matches ⟨true⟩ (Json.str "0042") = [] ∧
    parseU16 "0042" = some 42 ∧
    (U16Matcher.json_matches ⟨true⟩ (Json.str "42.5")
      = [JsonMatcherError.at_root "Expected number fitting u16"]) ∧
    (U16Matcher.json_matches ⟨true⟩ (Json.str " 42 ")
      = [JsonMatcherError.at_root "Expected number fitting u16"]) ∧
    (U16Matcher.json_matches ⟨true⟩ (Json.str "")
      = [JsonMatcherError.at_root "Expected number fitting u16"]) := by
  refine ⟨?_, ?_, by decide, by decide, by decide, by decide, by decide, by decide,
    by decide, by decide, by decide⟩
  · intro n i h
    simp only [U16Matcher.json_matches, Json.value_as_i64, h]
  · intro s
    simp only [U16Matcher.json_matches, Json.value_as_str]

/-- C9: for every parse oracle and bound configuration, a string the oracle
parses to a datetime with non-zero UTC offset yields exactly the single
"Datetime is not in UTC" error (no bound error), and a string failing both
parse attempts yields exactly one error embedding the original parse failure
reason. -/
theorem datetime_utc_precedence :
    (∀ (parse : Rfc3339Parse) (fmt : Int → String) (self : DateTimeStringMatcher)
        (s : String) (dt : ParsedDateTime),
        parse s = Except.ok dt → dt.utc_minus_local ≠ 0 →
        DateTimeStringMatcher.json_matches parse fmt self (Json.str s)
          = [JsonMatcherError.at_root "Datetime is not in UTC"]) ∧
    (∀ (parse : Rfc3339Parse) (fmt : Int → String) (self : DateTimeStringMatcher)
        (s : String) (e1 e2 : String),
        parse s = Except.error e1 → parse (s ++ "Z") = Except.error e2 →
        DateTimeStringMatcher.json_matches parse fmt self (Json.str s)
          = [JsonMatcherError.at_root
              ("Could not parse string as rfc3339 datetime: " ++
                "Value cannot be parsed as an RFC 3339 timestamp: " ++ e1)]) := by
  constructor
  · intro parse fmt self s dt hok hoff
    simp only [DateTimeStringMatcher.json_matches, parse_datetime_from_string, hok]
    rw [if_pos hoff]
  · intro parse fmt self s e1 e2 h1 h2
    simp only [DateTimeStringMatcher.json_matches, parse_datetime_from_string, h1, h2]
    rw [String.append_assoc]

/-- C10: `AnyMatcher::new` accepts every JSON value including null;
`AnyMatcher::not_null` rejects exactly null, with the single error
"Expected non-null value". -/
theorem any_matcher_behavior :
    (∀ v : Json, AnyMatcher.new.json_matches v = []) ∧
    (AnyMatcher.mk_not_null.json_matches Json.null
      = [JsonMatcherError.at_root "Expected non-null value"]) ∧
    (∀ v : Json, v ≠ Json.null → AnyMatcher.mk_not_null.json_matches v = []) := by
  refine ⟨?_, rfl, ?_⟩
  · intro v
    rfl
  · intro v hv
    cases v with
    | null => exact absurd rfl hv
    | bool b => rfl
    | num n => rfl
    | str s => rfl
    | arr a => rfl
    | obj a => rfl
